import Mathlib

/-!
Verification development for the parametric plate-drawing tool
(src/src/app/page.js). The numeric core is shallowly embedded: JavaScript
double arithmetic on the values handled here is idealized as exact rational
arithmetic over ℚ (the decimal literals of the source, such as 0.1 and 25.4,
are read as the exact rationals they denote), and the real-valued geometry of
the dimension annotator, which uses Math.hypot, is embedded over ℝ. JS string
results are modeled as Lean `String`s, and the non-finite numbers (NaN and the
infinities) that `Number` can produce are modeled by `Option ℚ` with `none`
for a non-finite result, which is exactly the distinction `Number.isFinite`
draws in `ensureNumber`.
-/

/-- Model of the helper `clamp` (page.js line 28):
`(v, min, max) => Math.max(min, Math.min(max, v))`. -/
def clamp (v mn mx : ℚ) : ℚ := max mn (min mx v)

/-- Decimal digit characters of a natural number, left-padded with zeros to
at least `w` characters; used to render the fixed-point strings of
`toFixed`. -/
def padDigits (n w : Nat) : List Char :=
  let ds := Nat.toDigits 10 n
  List.replicate (w - ds.length) '0' ++ ds

/-- Model of JavaScript `Number.prototype.toFixed` on a finite value: per the
ECMAScript specification, a negative value contributes a leading minus sign and
is replaced by its absolute value; then the integer n for which n / 10^f is
nearest the value (ties to the larger n, i.e. `n = ⌊x·10^f + 1/2⌋`) is rendered
with exactly f fractional digits (a decimal point splitting off the last f
digit characters when f is positive). -/
def toFixed (x : ℚ) (f : Nat) : String :=
  let n : Nat := (Int.floor (|x| * (10 : ℚ) ^ f + 1/2)).toNat
  let ds := padDigits n (f + 1)
  let digits := if f = 0 then ds else ds.take (ds.length - f) ++ '.' :: ds.drop (ds.length - f)
  (if x < 0 then "-" else "") ++ String.mk digits

/-- Model of `inchesToEngineeringStr` (page.js lines 30-38): engineering
format, rendered as sign, feet, "'-", inches fixed to `precision`, and a
closing inch mark. `feet` is `Math.floor(abs / 12)` (a nonnegative integer,
held as `Nat` so that its JS decimal printing is `toString`), and the inch
remainder is `abs - feet * 12`. -/
def inchesToEngineeringStr (inches : ℚ) (precision : Nat) : String :=
  let sign := if inches < 0 then "-" else ""
  let abs := |inches|
  let feet : Nat := (Int.floor (abs / 12)).toNat
  let inch := abs - (feet : ℚ) * 12
  let inc := toFixed inch precision
  sign ++ toString feet ++ "'-" ++ inc ++ "\""

/-- The two unit systems of the display toggle, the source's strings
"in" and "mm". -/
inductive UnitSys
  | inch
  | mm
deriving DecidableEq

/-- Model of `formatValue` (page.js lines 40-45): inches are rendered with an
inch mark; otherwise the value is converted to millimeters (times 25.4) and
rendered with a " mm" suffix. -/
def formatValue (valueInInches : ℚ) (unit : UnitSys) (precision : Nat) : String :=
  if unit = UnitSys.inch then toFixed valueInInches precision ++ "\""
  else toFixed (valueInInches * (254/10)) precision ++ " mm"

/-- Model of `ensureNumber` (page.js lines 47-50): `v` stands for the result
of `Number(...)` on the raw input, with `none` for a non-finite result (NaN or
an infinity), so `Number.isFinite(n) ? n : fallback` is `v.getD fallback`. -/
def ensureNumber (v : Option ℚ) (fallback : ℚ) : ℚ := v.getD fallback

/-- Whether a character is one the JS `Number` coercion strips from the ends
of its string argument (the StrWhiteSpace used here: space, tab, newline,
carriage return). -/
def isJsSpace (c : Char) : Bool :=
  c = ' ' || c = '\t' || c = '\n' || c = '\r'

/-- The value of a list of decimal digit characters. -/
def digitsVal (cs : List Char) : Nat :=
  cs.foldl (fun a c => a * 10 + (c.toNat - 48)) 0

/-- Exponent suffix of a JS numeric literal: an optional sign and at least one
digit, consuming the whole rest of the string; the mantissa is scaled by the
resulting power of ten. -/
def jsExponent (mant : ℚ) (r : List Char) : Option ℚ :=
  let neg : Bool := match r with
    | '-' :: _ => true
    | _ => false
  let r1 : List Char := match r with
    | '-' :: rr => rr
    | '+' :: rr => rr
    | rr => rr
  let ed := r1.takeWhile Char.isDigit
  if ed.isEmpty ∨ ¬ (r1.dropWhile Char.isDigit).isEmpty then none
  else some (if neg then mant / (10 : ℚ) ^ digitsVal ed else mant * (10 : ℚ) ^ digitsVal ed)

/-- Model of the JS `Number` coercion on a string, restricted to the decimal
StringNumericLiteral grammar that the inputs of this program exercise: the
string is trimmed; a trimmed-empty string is 0; otherwise an optional sign, an
integer part and an optional fraction (at least one digit between them) and an
optional exponent are read; any other string (including the Infinity spellings
and the 0x/0o/0b radix literals, which never reach `ensureNumber` finite here)
gives `none`, a non-finite result. -/
def jsNumberOfString (s : String) : Option ℚ :=
  let t := (List.dropWhile isJsSpace s.toList).reverse
  let t := (List.dropWhile isJsSpace t).reverse
  if t.isEmpty then some 0 else
  let neg : Bool := match t with
    | '-' :: _ => true
    | _ => false
  let t1 : List Char := match t with
    | '-' :: rr => rr
    | '+' :: rr => rr
    | rr => rr
  let ip := t1.takeWhile Char.isDigit
  let r1 := t1.dropWhile Char.isDigit
  let fp : List Char := match r1 with
    | '.' :: rr => rr.takeWhile Char.isDigit
    | _ => []
  let r2 : List Char := match r1 with
    | '.' :: rr => rr.dropWhile Char.isDigit
    | rr => rr
  if ip.isEmpty ∧ fp.isEmpty then none else
  let mant : ℚ :=
    (if neg then -1 else 1) *
      ((digitsVal ip : ℚ) + (digitsVal fp : ℚ) / (10 : ℚ) ^ fp.length)
  match r2 with
  | [] => some mant
  | 'e' :: rr => jsExponent mant rr
  | 'E' :: rr => jsExponent mant rr
  | _ => none

/-- The three parameter fields of the store (page.js lines 64-68). -/
inductive ParamField
  | width_in
  | thickness_in
  | centerHoleDia_in
deriving DecidableEq

/-- The parameter store's state: the three raw fields, held in inches
(page.js lines 64-68). -/
structure PlateParams where
  width_in : ℚ
  thickness_in : ℚ
  centerHoleDia_in : ℚ
deriving DecidableEq

/-- The defaults the store is created with (page.js lines 64-68). -/
def defaultParams : PlateParams := ⟨10, 5/2, 5/2⟩

/-- Reading the store's field `s[key]`. -/
def getField (s : PlateParams) : ParamField → ℚ
  | ParamField.width_in => s.width_in
  | ParamField.thickness_in => s.thickness_in
  | ParamField.centerHoleDia_in => s.centerHoleDia_in

/-- The spread-merge `{ ...s, [key]: v }` of `setParams`: a copy of the state
with one field replaced. -/
def setField (s : PlateParams) : ParamField → ℚ → PlateParams
  | ParamField.width_in, v => { s with width_in := v }
  | ParamField.thickness_in, v => { s with thickness_in := v }
  | ParamField.centerHoleDia_in, v => { s with centerHoleDia_in := v }

/-- Model of `uiVal` (page.js line 60): inches to the display unit. -/
def uiVal (unit : UnitSys) (inches : ℚ) : ℚ :=
  if unit = UnitSys.inch then inches else inches * (254/10)

/-- Model of `fromUi` (page.js line 61): a display-unit value back to inches. -/
def fromUi (unit : UnitSys) (val : ℚ) : ℚ :=
  if unit = UnitSys.inch then val else val / (254/10)

/-- Model of `setParam` (page.js lines 96-97): the raw input (already coerced
by `Number`, with `none` for a non-finite result) is defaulted by
`ensureNumber` to the display form of the current stored field, converted to
base units by `fromUi`, and merged into a copy of the state. No clamping
happens here. -/
def setParam (unit : UnitSys) (key : ParamField) (uiValue : Option ℚ) (s : PlateParams) : PlateParams :=
  setField s key (fromUi unit (ensureNumber uiValue (uiVal unit (getField s key))))

/-- Model of the clamped parameter view `p` built by the `computed` useMemo
(page.js lines 77-90): width is clamped to [2, 36] first, thickness to
[0.1, 10], and the center hole diameter to [0.1, 0.9 × width] where the width
read is the already-clamped one (the memo overwrites `p.width_in` before line
81 reads it). The memo also returns the projection closure and the half
extents, modeled by `pxOf` and halves of this view. -/
def computedP (params : PlateParams) : PlateParams :=
  let w := clamp params.width_in 2 36
  let t := clamp params.thickness_in (1/10) 10
  let h := clamp params.centerHoleDia_in (1/10) (w * (9/10))
  ⟨w, t, h⟩

/-- The projection `px` of the `computed` memo (page.js lines 83-84):
`x * scale * zoom` with `scale = 8`. -/
def pxOf (zoom x : ℚ) : ℚ := x * 8 * zoom

/-- One UI update event: the field hit, the `Number`-coerced raw value
(`none` when non-finite), and the unit selected at that moment. -/
def applyUpdates : List (ParamField × Option ℚ × UnitSys) → PlateParams → PlateParams
  | [], s => s
  | (key, raw, unit) :: rest, s => applyUpdates rest (setParam unit key raw s)

/-- Model of `downloadJSON`'s payload (page.js lines 113-121): the document
serialized is `JSON.stringify(params, ...)` on the raw stored `params` state,
field for field, not the clamped `computed.p` view. -/
structure ParamsJSON where
  width_in : ℚ
  thickness_in : ℚ
  centerHoleDia_in : ℚ
deriving DecidableEq

/-- The exported parameter document: the three stored fields exactly as
stored (page.js line 114 stringifies `params` itself). -/
def downloadJSON (params : PlateParams) : ParamsJSON :=
  ⟨params.width_in, params.thickness_in, params.centerHoleDia_in⟩

/-- The width dimension's label text (page.js line 361): the "WIDTH = "
prefix, then engineering format when the unit is inches, else `formatValue`.
It reads the clamped view `p`. -/
def widthDimText (unit : UnitSys) (precision : Nat) (p : PlateParams) : String :=
  "WIDTH = " ++
    (if unit = UnitSys.inch then inchesToEngineeringStr p.width_in precision
     else formatValue p.width_in unit precision)

/-- The thickness dimension's label text (page.js line 364): `formatValue` of
the clamped thickness, with no prefix. -/
def thicknessDimText (unit : UnitSys) (precision : Nat) (p : PlateParams) : String :=
  formatValue p.thickness_in unit precision

/-- The center hole dimension's label text (page.js line 368): a diameter sign
and `formatValue` of the clamped hole diameter. -/
def holeDimText (unit : UnitSys) (precision : Nat) (p : PlateParams) : String :=
  "⌀" ++ formatValue p.centerHoleDia_in unit precision

/-- Model of the length computation in `Dim` (page.js lines 144-146):
`Math.hypot(dx, dy)` with `dx = x2 - x1`, `dy = y2 - y1`, idealized as the
exact Euclidean norm over ℝ. -/
noncomputable def dimLen (x1 y1 x2 y2 : ℝ) : ℝ :=
  Real.sqrt ((x2 - x1) ^ 2 + (y2 - y1) ^ 2)

/-- The guarded divisor `(len || 1)` of `Dim` (page.js lines 147-148): the JS
or-expression yields 1 exactly when the finite nonnegative `len` is falsy,
that is, zero. -/
noncomputable def dimLen1 (x1 y1 x2 y2 : ℝ) : ℝ :=
  if dimLen x1 y1 x2 y2 = 0 then 1 else dimLen x1 y1 x2 y2

/-- The unit-direction x component `ux = dx / (len || 1)` (page.js line 147). -/
noncomputable def dimUx (x1 y1 x2 y2 : ℝ) : ℝ := (x2 - x1) / dimLen1 x1 y1 x2 y2

/-- The unit-direction y component `uy = dy / (len || 1)` (page.js line 148). -/
noncomputable def dimUy (x1 y1 x2 y2 : ℝ) : ℝ := (y2 - y1) / dimLen1 x1 y1 x2 y2

/-- The normal's x component `nx = -uy` (page.js line 149). -/
noncomputable def dimNx (x1 y1 x2 y2 : ℝ) : ℝ := -dimUy x1 y1 x2 y2

/-- The normal's y component `ny = ux` (page.js line 150). -/
noncomputable def dimNy (x1 y1 x2 y2 : ℝ) : ℝ := dimUx x1 y1 x2 y2

/-- The coordinates a `Dim` element emits (page.js lines 152-175): the offset
anchors `(ox, oy)` and `(px, py)` of the dimension line (the extension lines
run from the input anchors to these), and the label anchor, shifted by the
constants of lines 168-169 when a rotation is given. -/
structure DimGeom where
  ox : ℝ
  oy : ℝ
  px : ℝ
  py : ℝ
  textX : ℝ
  textY : ℝ

/-- Model of the `Dim` component's geometry (page.js lines 142-178). -/
noncomputable def Dim (x1 y1 x2 y2 offset : ℝ) (rotate : Bool) : DimGeom :=
  { ox := x1 + dimNx x1 y1 x2 y2 * offset
    oy := y1 + dimNy x1 y1 x2 y2 * offset
    px := x2 + dimNx x1 y1 x2 y2 * offset
    py := y2 + dimNy x1 y1 x2 y2 * offset
    textX := (x1 + dimNx x1 y1 x2 y2 * offset + (x2 + dimNx x1 y1 x2 y2 * offset)) / 2
      + (if rotate then 14 else 0)
    textY := (y1 + dimNy x1 y1 x2 y2 * offset + (y2 + dimNy x1 y1 x2 y2 * offset)) / 2
      - (if rotate then 22 else 6) }

/-- The lower clamp bound the derived view applies to each field
(page.js lines 79-81). -/
def fieldLowerBound : ParamField → ℚ
  | ParamField.width_in => 2
  | ParamField.thickness_in => 1/10
  | ParamField.centerHoleDia_in => 1/10

section RatEval

attribute [local semireducible] Rat.mul Rat.inv Rat.add Rat.sub Rat.ofScientific

theorem le_clamp (v mn mx : ℚ) : mn ≤ clamp v mn mx := le_max_left _ _

theorem clamp_le_right (v : ℚ) {mn mx : ℚ} (h : mn ≤ mx) : clamp v mn mx ≤ mx :=
  max_le h (min_le_left _ _)

theorem computedP_invariants (s : PlateParams) :
    2 ≤ (computedP s).width_in ∧ (computedP s).width_in ≤ 36 ∧
    1/10 ≤ (computedP s).thickness_in ∧ (computedP s).thickness_in ≤ 10 ∧
    1/10 ≤ (computedP s).centerHoleDia_in ∧
    (computedP s).centerHoleDia_in ≤ (9/10) * (computedP s).width_in := by
  dsimp only [computedP]
  have hw : (2:ℚ) ≤ clamp s.width_in 2 36 := le_clamp _ _ _
  have hb : (1:ℚ)/10 ≤ clamp s.width_in 2 36 * (9/10) := by nlinarith
  refine ⟨le_clamp _ _ _, clamp_le_right _ (by norm_num), le_clamp _ _ _,
    clamp_le_right _ (by norm_num), le_clamp _ _ _, ?_⟩
  have := clamp_le_right s.centerHoleDia_in hb
  linarith

/-- C1: an update converts the raw display value to base units with the
current stored value as its non-finite fallback, merges it into a copy of the
store, and the exposed view then clamps width to [2, 36], thickness to
[0.1, 10], and the center hole diameter to [0.1, 0.9 × width] using the
already-clamped width, so the exposed parameters satisfy all three range
invariants after any update. -/
theorem update_reclamps_invariants (unit : UnitSys) (key : ParamField)
    (raw : Option ℚ) (s : PlateParams) :
    computedP (setParam unit key raw s) =
      ⟨clamp (setParam unit key raw s).width_in 2 36,
       clamp (setParam unit key raw s).thickness_in (1/10) 10,
       clamp (setParam unit key raw s).centerHoleDia_in (1/10)
         (clamp (setParam unit key raw s).width_in 2 36 * (9/10))⟩ ∧
    2 ≤ (computedP (setParam unit key raw s)).width_in ∧
    (computedP (setParam unit key raw s)).width_in ≤ 36 ∧
    1/10 ≤ (computedP (setParam unit key raw s)).thickness_in ∧
    (computedP (setParam unit key raw s)).thickness_in ≤ 10 ∧
    1/10 ≤ (computedP (setParam unit key raw s)).centerHoleDia_in ∧
    (computedP (setParam unit key raw s)).centerHoleDia_in ≤
      (9/10) * (computedP (setParam unit key raw s)).width_in :=
  ⟨rfl, computedP_invariants _⟩

/-- C2: after every finite sequence of updates, the exposed center hole
diameter is at most 0.9 times the exposed width; in particular, after first
setting the hole diameter to 9 on the default store and then shrinking the
width to 2, the exposed hole diameter is 1.8 = 0.9 × 2. -/
theorem hole_bounded_after_any_sequence
    (updates : List (ParamField × Option ℚ × UnitSys)) (s : PlateParams) :
    (computedP (applyUpdates updates s)).centerHoleDia_in ≤
      (9/10) * (computedP (applyUpdates updates s)).width_in ∧
    (computedP (applyUpdates
        [(ParamField.centerHoleDia_in, some 9, UnitSys.inch),
         (ParamField.width_in, some 2, UnitSys.inch)] defaultParams)).centerHoleDia_in
      = 9/5 ∧
    (computedP (applyUpdates
        [(ParamField.centerHoleDia_in, some 9, UnitSys.inch),
         (ParamField.width_in, some 2, UnitSys.inch)] defaultParams)).width_in = 2 :=
  ⟨(computedP_invariants _).2.2.2.2.2, by decide, by decide⟩

/-- C3: an update whose raw value coerces to a non-finite number (`none` in
the model, e.g. the string "abc") leaves the store exactly as it was: the
fallback re-installs the previous value of the touched field and no fault
arises. -/
theorem invalid_input_keeps_store (unit : UnitSys) (key : ParamField)
    (raw : Option ℚ) (s : PlateParams) (h : raw = none) :
    setParam unit key raw s = s := by
  subst h
  have h254 : ((254:ℚ)/10) ≠ 0 := by norm_num
  cases s
  cases key <;> cases unit <;>
    simp [setParam, ensureNumber, getField, setField, fromUi, uiVal,
      mul_div_cancel_right₀, h254]

/-- Witness for C3 at the spec's concrete scenario: the string "abc" coerces
to a non-finite number and the update leaves the default store unchanged. -/
theorem invalid_input_keeps_store_witness :
    jsNumberOfString "abc" = none ∧
    setParam UnitSys.inch ParamField.width_in (jsNumberOfString "abc")
      defaultParams = defaultParams :=
  ⟨by decide, invalid_input_keeps_store UnitSys.inch ParamField.width_in
    (jsNumberOfString "abc") defaultParams (by decide)⟩

theorem clamp_zero_eq_lower {mn mx : ℚ} (h0 : 0 ≤ mx) (h1 : 0 ≤ mn) :
    clamp 0 mn mx = mn := by
  unfold clamp
  rw [min_eq_right h0, max_eq_left h1]

/-- C9: the empty raw string coerces to the finite number 0, so the update
stores 0 in the touched field (it does not fall back to the previous value),
and the derived geometry then clamps that field to its lower bound. -/
theorem empty_input_becomes_zero (unit : UnitSys) (key : ParamField)
    (s : PlateParams) :
    jsNumberOfString "" = some 0 ∧
    getField (setParam unit key (jsNumberOfString "") s) key = 0 ∧
    getField (computedP (setParam unit key (jsNumberOfString "") s)) key =
      fieldLowerBound key := by
  have h0 : jsNumberOfString "" = some 0 := by decide
  rw [h0]
  have hset : setParam unit key (some 0) s = setField s key 0 := by
    cases unit <;> simp [setParam, ensureNumber, fromUi, uiVal, zero_div]
  rw [hset]
  refine ⟨rfl, ?_, ?_⟩
  · cases s
    cases key <;> simp [getField, setField]
  · cases s with
    | mk w t h =>
      cases key
      · simp only [getField, setField, computedP, fieldLowerBound]
        exact clamp_zero_eq_lower (by norm_num) (by norm_num)
      · simp only [getField, setField, computedP, fieldLowerBound]
        exact clamp_zero_eq_lower (by norm_num) (by norm_num)
      · have hw9 : (0:ℚ) ≤ clamp w 2 36 * (9/10) := by
          nlinarith [le_clamp w 2 36]
        simp only [getField, setField, computedP, fieldLowerBound]
        exact clamp_zero_eq_lower hw9 (by norm_num)

/-- C10: the parameter export serializes the three stored raw fields exactly
as stored; after entering width = 100 the exported document carries
width 100, outside the [2, 36] invariant, while the derived view shows the
clamped 36 — clamping is never written back to the store. -/
theorem export_serializes_raw_params :
    (∀ q : PlateParams,
      downloadJSON q = ⟨q.width_in, q.thickness_in, q.centerHoleDia_in⟩) ∧
    downloadJSON (setParam UnitSys.inch ParamField.width_in (some 100)
      defaultParams) = ⟨100, 5/2, 5/2⟩ ∧
    ¬ ((downloadJSON (setParam UnitSys.inch ParamField.width_in (some 100)
      defaultParams)).width_in ≤ 36) ∧
    (computedP (setParam UnitSys.inch ParamField.width_in (some 100)
      defaultParams)).width_in = 36 :=
  ⟨fun _ => rfl, by decide, by decide, by decide⟩

end RatEval

section RatEvalFormat

attribute [local semireducible] Rat.mul Rat.inv Rat.add Rat.sub Rat.ofScientific

/-- C4: engineering format renders a value v of inches as sign, then
feet = floor(|v| / 12), then "'-", then the remainder |v| - feet * 12 fixed to
the requested digits, then an inch mark, with the sign prefix applied once to
the whole expression; at precision 2, input 0 renders as 0'-0.00" and
input -15 as -1'-3.00". -/
theorem engineering_format_spec (v : ℚ) (p : Nat) :
    inchesToEngineeringStr v p =
      (if v < 0 then "-" else "") ++ toString (Nat.floor (|v| / 12)) ++ "'-" ++
        toFixed (|v| - (Nat.floor (|v| / 12) : ℚ) * 12) p ++ "\"" ∧
    inchesToEngineeringStr 0 2 = "0'-0.00\"" ∧
    inchesToEngineeringStr (-15) 2 = "-1'-3.00\"" := by
  refine ⟨?_, by decide, by decide⟩
  simp only [inchesToEngineeringStr]
  rw [Int.floor_toNat]

/-- C5 counterexample: with the default parameters, Imperial units and
precision 2, the width dimension label of the scene is not the bare string
0'-10.00": the source prefixes the measurement with "WIDTH = ". -/
theorem scene_width_label_counterexample :
    widthDimText UnitSys.inch 2 (computedP defaultParams) ≠ "0'-10.00\"" := by
  decide

/-- C5 as amended: with the default parameters, Imperial units and precision
2, the width dimension label is WIDTH = 0'-10.00" (its measurement part being
0'-10.00"), the thickness label is 2.50", and the hole label is ⌀2.50". -/
theorem scene_default_labels :
    widthDimText UnitSys.inch 2 (computedP defaultParams) = "WIDTH = 0'-10.00\"" ∧
    thicknessDimText UnitSys.inch 2 (computedP defaultParams) = "2.50\"" ∧
    holeDimText UnitSys.inch 2 (computedP defaultParams) = "⌀2.50\"" :=
  ⟨by decide, by decide, by decide⟩

/-- C6 counterexample: at precision 2, the input 11.999 inches renders as
0'-12.00", a string whose remainder part displays as a full twelve inches, so
the function does not avoid the N'-12.00" form. -/
theorem engineering_format_twelve_counterexample :
    inchesToEngineeringStr (11999/1000) 2 = "0'-12.00\"" := by
  decide

theorem string_parts_append (x : String) :
    "" ++ x ++ "'-" ++ "12.00" ++ "\"" = x ++ "'-12.00\"" := by
  apply String.ext
  simp [String.data_append]

/-- C6 as amended: feet and remainder are computed before rounding and are
not recomputed afterwards, so an input whose remainder rounds up to a full
foot at the given precision renders with a 12.00 remainder: for every foot
count f, the input 12·f + 11.999 renders at precision 2 as f'-12.00". -/
theorem engineering_format_no_recompute (f : Nat) :
    inchesToEngineeringStr (12 * (f : ℚ) + 11999/1000) 2 =
      toString f ++ "'-12.00\"" := by
  have hv : (0:ℚ) ≤ 12 * (f:ℚ) + 11999/1000 := by positivity
  simp only [inchesToEngineeringStr]
  rw [abs_of_nonneg hv, if_neg (not_lt.mpr hv)]
  have hfl : Int.floor ((12 * (f:ℚ) + 11999/1000) / 12) = (f : ℤ) := by
    have he : (12 * (f:ℚ) + 11999/1000) / 12 = ((f:ℤ) : ℚ) + 11999/12000 := by
      push_cast
      ring
    rw [he, Int.floor_int_add]
    norm_num
  rw [hfl, Int.toNat_natCast]
  have hrem : 12 * (f:ℚ) + 11999/1000 - (f:ℚ) * 12 = 11999/1000 := by ring
  rw [hrem]
  have htf : toFixed (11999/1000) 2 = "12.00" := by decide
  rw [htf]
  exact string_parts_append (toString f)

/-- C7 counterexample: formatDecimal applied to the base value 25.4 in Metric
at precision 1 does not yield 25.4 mm: the base value is converted to
millimeters first, giving 645.2 mm. -/
theorem formatValue_metric_counterexample :
    formatValue (254/10) UnitSys.mm 1 ≠ "25.4 mm" := by
  decide

/-- C7 as amended: formatDecimal formats toDisplay(base, unit) with the given
number of fractional digits, suffixed with an inch mark for Imperial and with
" mm" for Metric; the base value 1 yields 25.4 mm in Metric at precision 1
(the base value 25.4 yields 645.2 mm there) and 1.00" in Imperial at
precision 2. -/
theorem formatValue_display_rule (base : ℚ) (unit : UnitSys) (p : Nat) :
    formatValue base unit p =
      toFixed (uiVal unit base) p ++ (if unit = UnitSys.inch then "\"" else " mm") ∧
    formatValue 1 UnitSys.mm 1 = "25.4 mm" ∧
    formatValue 1 UnitSys.inch 2 = "1.00\"" ∧
    formatValue (254/10) UnitSys.mm 1 = "645.2 mm" := by
  refine ⟨?_, by decide, by decide, by decide⟩
  cases unit <;> simp [formatValue, uiVal]

end RatEvalFormat

/-- C8: the dimension builder is total and NaN-free: the guarded divisor
`(len || 1)` is positive for every pair of anchors, equal to 1 exactly in the
degenerate case p1 = p2 (where the offset anchors collapse onto the inputs,
all coordinates staying finite); otherwise the length is the true Euclidean
norm, the normal is n = (-u.y, u.x) for the unit vector u = d / len, and in
all cases the offset anchors are o1 = p1 + n·offset and o2 = p2 + n·offset,
with the label anchored at the midpoint of the dimension line. -/
theorem dim_guard_and_anchors (x1 y1 x2 y2 offset : ℝ) (rotate : Bool) :
    0 < dimLen1 x1 y1 x2 y2 ∧
    ((x1, y1) = (x2, y2) →
      dimLen1 x1 y1 x2 y2 = 1 ∧
      (Dim x1 y1 x2 y2 offset rotate).ox = x1 ∧
      (Dim x1 y1 x2 y2 offset rotate).oy = y1 ∧
      (Dim x1 y1 x2 y2 offset rotate).px = x2 ∧
      (Dim x1 y1 x2 y2 offset rotate).py = y2) ∧
    ((x1, y1) ≠ (x2, y2) →
      0 < dimLen x1 y1 x2 y2 ∧
      dimLen1 x1 y1 x2 y2 = dimLen x1 y1 x2 y2 ∧
      dimNx x1 y1 x2 y2 = -((y2 - y1) / dimLen x1 y1 x2 y2) ∧
      dimNy x1 y1 x2 y2 = (x2 - x1) / dimLen x1 y1 x2 y2) ∧
    (Dim x1 y1 x2 y2 offset rotate).ox = x1 + dimNx x1 y1 x2 y2 * offset ∧
    (Dim x1 y1 x2 y2 offset rotate).oy = y1 + dimNy x1 y1 x2 y2 * offset ∧
    (Dim x1 y1 x2 y2 offset rotate).px = x2 + dimNx x1 y1 x2 y2 * offset ∧
    (Dim x1 y1 x2 y2 offset rotate).py = y2 + dimNy x1 y1 x2 y2 * offset ∧
    (Dim x1 y1 x2 y2 offset rotate).textX =
      ((Dim x1 y1 x2 y2 offset rotate).ox + (Dim x1 y1 x2 y2 offset rotate).px) / 2 +
        (if rotate then 14 else 0) ∧
    (Dim x1 y1 x2 y2 offset rotate).textY =
      ((Dim x1 y1 x2 y2 offset rotate).oy + (Dim x1 y1 x2 y2 offset rotate).py) / 2 -
        (if rotate then 22 else 6) := by
  have hnn : 0 ≤ dimLen x1 y1 x2 y2 := Real.sqrt_nonneg _
  refine ⟨?_, ?_, ?_, rfl, rfl, rfl, rfl, rfl, rfl⟩
  · unfold dimLen1
    split
    · norm_num
    · next hne => exact lt_of_le_of_ne hnn (Ne.symm hne)
  · intro hdeg
    rw [Prod.mk.injEq] at hdeg
    obtain ⟨hx, hy⟩ := hdeg
    subst hx
    subst hy
    have hlen : dimLen x1 y1 x1 y1 = 0 := by
      unfold dimLen
      simp
    have hone : dimLen1 x1 y1 x1 y1 = 1 := by
      unfold dimLen1
      rw [if_pos hlen]
    have hnx : dimNx x1 y1 x1 y1 = 0 := by
      unfold dimNx dimUy
      simp
    have hny : dimNy x1 y1 x1 y1 = 0 := by
      unfold dimNy dimUx
      simp
    refine ⟨hone, ?_, ?_, ?_, ?_⟩ <;>
      simp [Dim, hnx, hny]
  · intro hneq
    have hcomp : x2 - x1 ≠ 0 ∨ y2 - y1 ≠ 0 := by
      by_contra hc
      push_neg at hc
      obtain ⟨hx, hy⟩ := hc
      exact hneq (Prod.ext (sub_eq_zero.mp hx).symm (sub_eq_zero.mp hy).symm)
    have hpos2 : 0 < (x2 - x1) ^ 2 + (y2 - y1) ^ 2 := by
      rcases hcomp with h | h
      · nlinarith [sq_nonneg (y2 - y1), sq_pos_of_ne_zero h]
      · nlinarith [sq_nonneg (x2 - x1), sq_pos_of_ne_zero h]
    have hlpos : 0 < dimLen x1 y1 x2 y2 := Real.sqrt_pos.mpr hpos2
    have hguard : dimLen1 x1 y1 x2 y2 = dimLen x1 y1 x2 y2 := by
      unfold dimLen1
      rw [if_neg (ne_of_gt hlpos)]
    refine ⟨hlpos, hguard, ?_, ?_⟩
    · unfold dimNx dimUy
      rw [hguard]
    · unfold dimNy dimUx
      rw [hguard]
